import Mathlib

/-!
Verification of the structural-extraction and diagram core of the
codebase_genius repository (src/utils.py), shallowly embedded in Lean.

The embedding models the tree-sitter concrete syntax tree as an inductive
`TSNode` (node id, node type, optional field name within its parent, byte
span, start/end points, children).  Parsing itself is performed by the
external tree-sitter library, so analysis functions take the parse tree and
the content bytes as inputs; concrete theorems use hand-written trees that
mirror the trees tree-sitter produces for the stated inputs.  Machine text
is modelled as `List Char` standing for the UTF-8 byte string (all inputs
used are ASCII, where bytes and characters coincide).
-/

namespace CodebaseGenius

/-- A tree-sitter syntax node: id, grammar type, the field name this node
occupies in its parent (if any), start/end byte offsets, start/end points
(row, column), and the list of children.  Only named children are carried;
no code path under verification inspects anonymous token children. -/
inductive TSNode where
  | mk : Nat → String → Option String → Nat → Nat → Nat × Nat → Nat × Nat →
      List TSNode → TSNode

/-- Node id (tree-sitter `node.id`, unique within a real parse tree). -/
def TSNode.nid : TSNode → Nat
  | .mk i _ _ _ _ _ _ _ => i

/-- Node grammar type (tree-sitter `node.type`). -/
def TSNode.type : TSNode → String
  | .mk _ t _ _ _ _ _ _ => t

/-- The field name this node occupies inside its parent, if any. -/
def TSNode.field : TSNode → Option String
  | .mk _ _ f _ _ _ _ _ => f

/-- Start byte offset (tree-sitter `node.start_byte`). -/
def TSNode.startByte : TSNode → Nat
  | .mk _ _ _ sb _ _ _ _ => sb

/-- End byte offset (tree-sitter `node.end_byte`). -/
def TSNode.endByte : TSNode → Nat
  | .mk _ _ _ _ eb _ _ _ => eb

/-- Start point, a (row, column) pair (tree-sitter `node.start_point`). -/
def TSNode.startPoint : TSNode → Nat × Nat
  | .mk _ _ _ _ _ sp _ _ => sp

/-- End point, a (row, column) pair (tree-sitter `node.end_point`). -/
def TSNode.endPoint : TSNode → Nat × Nat
  | .mk _ _ _ _ _ _ ep _ => ep

/-- The children of a node (tree-sitter `node.children`). -/
def TSNode.children : TSNode → List TSNode
  | .mk _ _ _ _ _ _ _ cs => cs

mutual
/-- All nodes of the subtree rooted at a node, in pre-order (the order in
which tree-sitter query captures are reported). -/
def all_nodes : TSNode → List TSNode
  | n@(.mk _ _ _ _ _ _ _ cs) => n :: all_nodes_list cs

/-- All nodes of a forest, in pre-order. -/
def all_nodes_list : List TSNode → List TSNode
  | [] => []
  | c :: cs => all_nodes c ++ all_nodes_list cs
end

/-- tree-sitter `node.child_by_field_name(f)`: the first child occupying
field `f`. -/
def child_by_field_name (n : TSNode) (f : String) : Option TSNode :=
  n.children.find? (fun c => c.field = some f)

/-- tree-sitter `node.parent.id`, recovered structurally: the id of the
first node (in pre-order) of the whole tree whose children include a node
with the id of `n`.  On real parse trees (unique ids) this is exactly the
id of `n`'s parent, and `none` exactly when `n` is the root. -/
def parent_id (root : TSNode) (n : TSNode) : Option Nat :=
  ((all_nodes root).find? (fun p => p.children.any (fun c => c.nid = n.nid))).map
    (fun p => p.nid)

/-- `get_node_text` from src/utils.py: the slice
`content_bytes[node.start_byte : node.end_byte]` decoded to a string. -/
def get_node_text (node : TSNode) (content_bytes : List Char) : String :=
  (((content_bytes.drop node.startByte).take (node.endByte - node.startByte))).asString

/-- `get_docstring` from src/utils.py: if the body has a child and its first
child is an `expression_statement` whose first child is a `string`, return
that string node's source text, else `""`.  (The source guards with
`child_count > 0` and indexes `children[0]`; an `expression_statement`
always has at least one child in the Python grammar, so the inner
empty-children branch is unreachable on real trees.) -/
def get_docstring (body_node : TSNode) (content_bytes : List Char) : String :=
  match body_node.children with
  | c :: _ =>
    if c.type = "expression_statement" then
      match c.children with
      | s :: _ => if s.type = "string" then get_node_text s content_bytes else ""
      | [] => ""
    else ""
  | [] => ""

/-! ## The tree-sitter structural queries of src/utils.py (`py_queries`)

Each query is a fixed structural pattern; `captures(root)` reports, for
every node of the tree matching the pattern, the pattern's captures, in
pre-order of the matched node.  A pattern match requires both the field
names and the grammar types written in the pattern. -/

/-- The `functions` query pattern of `py_queries`:
`(function_definition name: (identifier) @name parameters: (parameters)
@params body: (block) @body) @function.definition`.  Returns the
`(name, params, body)` capture nodes when the node matches. -/
def function_match (n : TSNode) : Option (TSNode × TSNode × TSNode) :=
  if n.type = "function_definition" then
    match child_by_field_name n "name", child_by_field_name n "parameters",
        child_by_field_name n "body" with
    | some nm, some ps, some bd =>
      if nm.type = "identifier" ∧ ps.type = "parameters" ∧ bd.type = "block" then
        some (nm, ps, bd)
      else none
    | _, _, _ => none
  else none

/-- One match of the `functions` query: the matched `function_definition`
node and its `name`, `params` and `body` captures. -/
structure FMatch where
  fd : TSNode
  nm : TSNode
  ps : TSNode
  bd : TSNode

/-- All matches of the `functions` query over a tree, in pre-order. -/
def function_matches (root : TSNode) : List FMatch :=
  (all_nodes root).filterMap (fun n =>
    (function_match n).map (fun m => ⟨n, m.1, m.2.1, m.2.2⟩))

/-- The captures one `functions`-query match contributes to the flat
capture list, in the order the Python code relies on (the
`@function.definition` capture precedes the sub-captures of its match). -/
def fmatch_captures (m : FMatch) : List (TSNode × String) :=
  [(m.fd, "function.definition"), (m.nm, "name"), (m.ps, "params"), (m.bd, "body")]

/-- `py_queries["functions"].captures(root_node)` as consumed by
`analyze_python_code`. -/
def functions_captures (root : TSNode) : List (TSNode × String) :=
  ((function_matches root).map fmatch_captures).flatten

/-- The `classes` query pattern of `py_queries`:
`(class_definition name: (identifier) @name body: (block) @body)
@class.definition`. -/
def class_match (n : TSNode) : Option (TSNode × TSNode) :=
  if n.type = "class_definition" then
    match child_by_field_name n "name", child_by_field_name n "body" with
    | some nm, some bd =>
      if nm.type = "identifier" ∧ bd.type = "block" then some (nm, bd) else none
    | _, _ => none
  else none

/-- One match of the `classes` query. -/
structure CMatch where
  cd : TSNode
  nm : TSNode
  bd : TSNode

/-- All matches of the `classes` query over a tree, in pre-order. -/
def class_matches (root : TSNode) : List CMatch :=
  (all_nodes root).filterMap (fun n =>
    (class_match n).map (fun m => ⟨n, m.1, m.2⟩))

/-- The captures one `classes`-query match contributes. -/
def cmatch_captures (m : CMatch) : List (TSNode × String) :=
  [(m.cd, "class.definition"), (m.nm, "name"), (m.bd, "body")]

/-- `py_queries["classes"].captures(root_node)`. -/
def classes_captures (root : TSNode) : List (TSNode × String) :=
  ((class_matches root).map cmatch_captures).flatten

/-- The `calls` query pattern of `py_queries`:
`(call function: (identifier) @name) @call`.  Matches only call nodes whose
`function` field child is a plain identifier. -/
def call_match (n : TSNode) : Option TSNode :=
  if n.type = "call" then
    match child_by_field_name n "function" with
    | some idn => if idn.type = "identifier" then some idn else none
    | none => none
  else none

/-- All matches of the `calls` query over a tree, in pre-order:
the matched `call` node paired with its `@name` identifier capture. -/
def call_matches (root : TSNode) : List (TSNode × TSNode) :=
  (all_nodes root).filterMap (fun n =>
    (call_match n).map (fun idn => (n, idn)))

/-- `py_queries["calls"].captures(root_node)`. -/
def calls_captures (root : TSNode) : List (TSNode × String) :=
  ((call_matches root).map (fun m => [(m.1, "call"), (m.2, "name")])).flatten

/-! ## Call-site ownership resolution (src/utils.py lines 148-157) -/

mutual
/-- The chain of strict ancestors of the node with id `target`, innermost
first (the node's parent first, the root last); `none` when no node with
that id occurs in the tree. -/
def ancestor_chain : TSNode → Nat → Option (List TSNode)
  | n@(.mk _ _ _ _ _ _ _ cs), target =>
    if n.nid = target then some []
    else
      match ancestor_chain_list cs target with
      | some chain => some (chain ++ [n])
      | none => none

/-- `ancestor_chain` over a forest: the chain within the first child tree
containing the target. -/
def ancestor_chain_list : List TSNode → Nat → Option (List TSNode)
  | [], _ => none
  | c :: cs, target =>
    match ancestor_chain c target with
    | some chain => some chain
    | none => ancestor_chain_list cs target
end

/-- The `while` walk of `analyze_python_code`: starting from the call
node's parent, follow parents until a `function_definition` or
`class_definition` node is found; `None` when the chain is exhausted. -/
def find_owner : List TSNode → Option TSNode
  | [] => none
  | p :: rest =>
    if p.type = "function_definition" ∨ p.type = "class_definition" then some p
    else find_owner rest

/-- Owner resolution for the call identifier with id `nid`: run the
parent walk over its ancestor chain. -/
def call_owner (root : TSNode) (nid : Nat) : Option TSNode :=
  find_owner ((ancestor_chain root nid).getD [])

/-! ## The extracted records (`results` of `analyze_python_code`) -/

/-- One entry of `results["functions"]`. -/
structure FunctionInfo where
  name : String
  signature : String
  docstring : String
  code_body : String
  start_line : Nat × Nat
  end_line : Nat × Nat
deriving DecidableEq

/-- One entry of `results["classes"]`. -/
structure ClassInfo where
  name : String
  docstring : String
  code_body : String
  start_line : Nat × Nat
  end_line : Nat × Nat
deriving DecidableEq

/-- One entry of `results["calls"]`. -/
structure CallInfo where
  call_name : String
  line_number : Nat × Nat
  owner_function : Option String
deriving DecidableEq

/-- One entry of `results["imports"]` (never populated: the import capture
logic of src/utils.py is an elided comment, line 165). -/
structure ImportInfo where
  module : String
  imported : Option String
deriving DecidableEq

/-- The `results` dictionary returned by `analyze_python_code`. -/
structure AnalysisResults where
  functions : List FunctionInfo
  classes : List ClassInfo
  calls : List CallInfo
  imports : List ImportInfo
deriving DecidableEq

/-! ## Correlating `functions` captures (src/utils.py lines 103-122)

The Python code folds the flat capture list into the dictionary
`func_nodes` keyed by `node.id`: a `function.definition` capture installs a
fresh entry and a `name`/`params`/`body` capture is stored into the entry
keyed by its node's `parent.id`, if present. -/

/-- The value type of the `func_nodes` dictionary. -/
structure FuncRec where
  def_node : TSNode
  name : Option TSNode
  params : Option TSNode
  body : Option TSNode

/-- Python `func_nodes[k] = v` on an insertion-ordered dictionary
represented as an association list. -/
def dict_set (acc : List (Nat × FuncRec)) (k : Nat) (v : FuncRec) :
    List (Nat × FuncRec) :=
  if acc.any (fun p => p.1 = k) then
    acc.map (fun p => if p.1 = k then (k, v) else p)
  else acc ++ [(k, v)]

/-- `func_nodes[node.parent.id][name] = node` for a sub-capture tag. -/
def set_capture (r : FuncRec) (tag : String) (n : TSNode) : FuncRec :=
  if tag = "name" then { r with name := some n }
  else if tag = "params" then { r with params := some n }
  else if tag = "body" then { r with body := some n }
  else r

/-- One iteration of the capture loop of lines 106-111. -/
def func_capture_step (root : TSNode) (acc : List (Nat × FuncRec)) :
    TSNode × String → List (Nat × FuncRec)
  | (node, tag) =>
    if tag = "function.definition" then
      dict_set acc node.nid ⟨node, none, none, none⟩
    else if tag = "name" ∨ tag = "params" ∨ tag = "body" then
      match parent_id root node with
      | some pid =>
        if acc.any (fun p => p.1 = pid) then
          acc.map (fun p => if p.1 = pid then (pid, set_capture p.2 tag node) else p)
        else acc
      | none => acc
    else acc

/-- The finished `func_nodes` dictionary. -/
def func_nodes (root : TSNode) : List (Nat × FuncRec) :=
  (functions_captures root).foldl (func_capture_step root) []

/-- The loop body of lines 113-122: entries lacking a `name` capture are
skipped (`continue`); the source then indexes `params` and `body`
directly, which on query-produced captures are always present (a
`functions`-query match always carries all three sub-captures). -/
def func_record_to_entry (content_bytes : List Char) (r : FuncRec) :
    Option FunctionInfo :=
  match r.name with
  | none => none
  | some nm =>
    match r.params, r.body with
    | some ps, some bd =>
      some
        { name := get_node_text nm content_bytes
          signature := "def " ++ get_node_text nm content_bytes ++
            get_node_text ps content_bytes
          docstring := get_docstring bd content_bytes
          code_body := get_node_text r.def_node content_bytes
          start_line := r.def_node.startPoint
          end_line := r.def_node.endPoint }
    | _, _ => none

/-- `results["functions"]` of `analyze_python_code`. -/
def functions_results (root : TSNode) (content_bytes : List Char) :
    List FunctionInfo :=
  ((func_nodes root).map (fun p => p.2)).filterMap (func_record_to_entry content_bytes)

/-! ## Correlating `classes` captures (src/utils.py lines 124-142) -/

/-- The value type of the `class_nodes` dictionary. -/
structure ClassRec where
  def_node : TSNode
  name : Option TSNode
  body : Option TSNode

/-- Python `class_nodes[k] = v`. -/
def cdict_set (acc : List (Nat × ClassRec)) (k : Nat) (v : ClassRec) :
    List (Nat × ClassRec) :=
  if acc.any (fun p => p.1 = k) then
    acc.map (fun p => if p.1 = k then (k, v) else p)
  else acc ++ [(k, v)]

/-- Store a sub-capture into a `class_nodes` entry. -/
def cset_capture (r : ClassRec) (tag : String) (n : TSNode) : ClassRec :=
  if tag = "name" then { r with name := some n }
  else if tag = "body" then { r with body := some n }
  else r

/-- One iteration of the class-capture loop of lines 127-132. -/
def class_capture_step (root : TSNode) (acc : List (Nat × ClassRec)) :
    TSNode × String → List (Nat × ClassRec)
  | (node, tag) =>
    if tag = "class.definition" then
      cdict_set acc node.nid ⟨node, none, none⟩
    else if tag = "name" ∨ tag = "body" then
      match parent_id root node with
      | some pid =>
        if acc.any (fun p => p.1 = pid) then
          acc.map (fun p => if p.1 = pid then (pid, cset_capture p.2 tag node) else p)
        else acc
      | none => acc
    else acc

/-- The finished `class_nodes` dictionary. -/
def class_nodes (root : TSNode) : List (Nat × ClassRec) :=
  (classes_captures root).foldl (class_capture_step root) []

/-- The loop body of lines 134-142. -/
def class_record_to_entry (content_bytes : List Char) (r : ClassRec) :
    Option ClassInfo :=
  match r.name with
  | none => none
  | some nm =>
    match r.body with
    | some bd =>
      some
        { name := get_node_text nm content_bytes
          docstring := get_docstring bd content_bytes
          code_body := get_node_text r.def_node content_bytes
          start_line := r.def_node.startPoint
          end_line := r.def_node.endPoint }
    | none => none

/-- `results["classes"]` of `analyze_python_code`. -/
def classes_results (root : TSNode) (content_bytes : List Char) :
    List ClassInfo :=
  ((class_nodes root).map (fun p => p.2)).filterMap (class_record_to_entry content_bytes)

/-! ## The calls loop (src/utils.py lines 144-163) -/

/-- `results["calls"]` of `analyze_python_code`: for each `@name` capture,
record the callee text, its start point, and the name of the nearest
enclosing `function_definition`/`class_definition` found by the parent
walk (if any, and if that owner has a `name` field child). -/
def calls_results (root : TSNode) (content_bytes : List Char) : List CallInfo :=
  (calls_captures root).filterMap (fun cap =>
    if cap.2 = "name" then
      some
        { call_name := get_node_text cap.1 content_bytes
          line_number := cap.1.startPoint
          owner_function :=
            (call_owner root cap.1.nid).bind (fun pf =>
              (child_by_field_name pf "name").map
                (fun o => get_node_text o content_bytes)) }
    else none)

/-- `analyze_python_code` from src/utils.py: parse-tree in, `results` out.
Parsing (`py_parser.parse`) is performed by the external tree-sitter
library, which never raises and error-recovers on malformed input, so this
function consumes the resulting tree and the content bytes.  The import
capture logic is elided in the source (line 165), so `imports` stays
empty. -/
def analyze_python_code (root : TSNode) (content_bytes : List Char) :
    AnalysisResults :=
  { functions := functions_results root content_bytes
    classes := classes_results root content_bytes
    calls := calls_results root content_bytes
    imports := [] }

/-! ## `create_mermaid_chart` (src/utils.py lines 221-256)

The networkx `DiGraph` is modelled as insertion-ordered lists of labelled
nodes and of edges.  The mermaid rendering backend
(`nxm.builders.DiagramBuilder(...).build`, which may raise) is modelled as
a function argument returning `Except`, whose `error` case is caught by
the `try`/`except` of lines 245-256. -/

/-- An input node dictionary `{"id": ..., "label": ...}`. -/
structure GraphNode where
  id : String
  label : String
deriving DecidableEq

/-- An input edge dictionary `{"from": ..., "to": ...}`. -/
structure GraphEdge where
  from_ : String
  to_ : String
deriving DecidableEq

/-- The `nx.DiGraph` being built: nodes as (id, label) pairs in insertion
order, edges as (from, to) pairs in insertion order. -/
structure DiGraph where
  nodes : List (String × String)
  edges : List (String × String)
deriving DecidableEq

/-- `G.has_node(i)`. -/
def DiGraph.has_node (g : DiGraph) (i : String) : Bool :=
  g.nodes.any (fun p => p.1 = i)

/-- `G.add_node(i, label=lab)`: inserts the node, or updates the label of
an already-present node. -/
def DiGraph.add_node (g : DiGraph) (i lab : String) : DiGraph :=
  if g.has_node i then
    { g with nodes := g.nodes.map (fun p => if p.1 = i then (i, lab) else p) }
  else { g with nodes := g.nodes ++ [(i, lab)] }

/-- `G.add_edge(a, b)` on a `DiGraph`: duplicate edges are ignored.  (In
networkx this would also insert missing endpoint nodes, but
`create_mermaid_chart` only calls it after explicitly ensuring both
endpoints are present, so that branch is never taken.) -/
def DiGraph.add_edge (g : DiGraph) (a b : String) : DiGraph :=
  if g.edges.contains (a, b) then g else { g with edges := g.edges ++ [(a, b)] }

/-- The per-edge body of the loop of lines 237-243: materialize missing
endpoint nodes with `label = id`, then add the edge. -/
def add_edge_step (g : DiGraph) (e : GraphEdge) : DiGraph :=
  let g1 := if ¬ g.has_node e.from_ then g.add_node e.from_ e.from_ else g
  let g2 := if ¬ g1.has_node e.to_ then g1.add_node e.to_ e.to_ else g1
  g2.add_edge e.from_ e.to_

/-- The graph `G` handed to the mermaid builder: explicit nodes first
(lines 233-235), then the edge loop (lines 237-243). -/
def mermaid_graph (nodes : List GraphNode) (edges : List GraphEdge) : DiGraph :=
  let g0 := nodes.foldl (fun g n => g.add_node n.id n.label) ⟨[], []⟩
  edges.foldl add_edge_step g0

/-- `create_mermaid_chart` from src/utils.py.  `libs_loaded` models the
`"nx" not in globals()` guard of lines 226-228; `render` models
`str(builder.build(G))`, with `Except.error` standing for a raised
exception, caught by lines 254-256 and degraded to `""`. -/
def create_mermaid_chart (libs_loaded : Bool)
    (render : DiGraph → Except String String)
    (nodes : List GraphNode) (edges : List GraphEdge) : String :=
  if !libs_loaded then ""
  else if nodes.isEmpty then ""
  else
    match render (mermaid_graph nodes edges) with
    | .ok s => s
    | .error _ => ""

/-! ## Concrete parse trees

Each tree below is the tree-sitter-python parse tree of the stated source
text, written out node by node with the byte spans and points tree-sitter
assigns (anonymous token children and the internal children of `string`
nodes are omitted; no analyzed code path inspects them). -/

/-! ### `doc_text`: `def f():\n    "d"` — a function with a docstring -/

/-- The source text `def f():\n    "d"` as bytes. -/
def doc_text : List Char := "def f():\n    \"d\"".toList

/-- `identifier` node for the name `f`, bytes [4,5). -/
def doc_name : TSNode := .mk 3 "identifier" (some "name") 4 5 (0, 4) (0, 5) []

/-- `parameters` node `()`, bytes [5,7). -/
def doc_params : TSNode := .mk 4 "parameters" (some "parameters") 5 7 (0, 5) (0, 7) []

/-- `string` node `"d"`, bytes [13,16). -/
def doc_string_node : TSNode := .mk 7 "string" none 13 16 (1, 4) (1, 7) []

/-- `expression_statement` wrapping the string, bytes [13,16). -/
def doc_exprstmt : TSNode := .mk 6 "expression_statement" none 13 16 (1, 4) (1, 7)
  [doc_string_node]

/-- `block` body of the function, bytes [13,16). -/
def doc_block : TSNode := .mk 5 "block" (some "body") 13 16 (1, 4) (1, 7)
  [doc_exprstmt]

/-- `function_definition` node, bytes [0,16). -/
def doc_fd : TSNode := .mk 2 "function_definition" none 0 16 (0, 0) (1, 7)
  [doc_name, doc_params, doc_block]

/-- `module` root of the parse tree of `doc_text`. -/
def doc_tree : TSNode := .mk 1 "module" none 0 16 (0, 0) (1, 7) [doc_fd]

/-! ### `nested_text`: `def f():\n    def f():\n        g()\n` — a function
named `f` whose body is a nested function also named `f` containing the
call `g()` -/

/-- The nested-`f` source text as bytes. -/
def nested_text : List Char := "def f():\n    def f():\n        g()\n".toList

/-- Outer name `f`, bytes [4,5). -/
def outer_name : TSNode := .mk 3 "identifier" (some "name") 4 5 (0, 4) (0, 5) []

/-- Outer `parameters` `()`, bytes [5,7). -/
def outer_params : TSNode := .mk 4 "parameters" (some "parameters") 5 7 (0, 5) (0, 7) []

/-- Inner name `f`, bytes [17,18). -/
def inner_name : TSNode := .mk 7 "identifier" (some "name") 17 18 (1, 8) (1, 9) []

/-- Inner `parameters` `()`, bytes [18,20). -/
def inner_params : TSNode := .mk 8 "parameters" (some "parameters") 18 20 (1, 9) (1, 11) []

/-- The callee identifier `g`, bytes [30,31). -/
def g_ident : TSNode := .mk 12 "identifier" (some "function") 30 31 (2, 8) (2, 9) []

/-- The `argument_list` `()` of the call, bytes [31,33). -/
def g_args : TSNode := .mk 13 "argument_list" none 31 33 (2, 9) (2, 11) []

/-- The `call` node `g()`, bytes [30,33). -/
def g_call : TSNode := .mk 11 "call" none 30 33 (2, 8) (2, 11) [g_ident, g_args]

/-- `expression_statement` wrapping the call, bytes [30,33). -/
def g_exprstmt : TSNode := .mk 10 "expression_statement" none 30 33 (2, 8) (2, 11)
  [g_call]

/-- Inner `block` (body of the inner `f`), bytes [30,33). -/
def inner_block : TSNode := .mk 9 "block" (some "body") 30 33 (2, 8) (2, 11)
  [g_exprstmt]

/-- The inner `function_definition`, bytes [13,33). -/
def inner_fd : TSNode := .mk 6 "function_definition" none 13 33 (1, 4) (2, 11)
  [inner_name, inner_params, inner_block]

/-- Outer `block` (body of the outer `f`), bytes [13,33). -/
def outer_block : TSNode := .mk 5 "block" (some "body") 13 33 (1, 4) (2, 11)
  [inner_fd]

/-- The outer `function_definition`, bytes [0,33). -/
def outer_fd : TSNode := .mk 2 "function_definition" none 0 33 (0, 0) (2, 11)
  [outer_name, outer_params, outer_block]

/-- `module` root of the parse tree of `nested_text`. -/
def nested_tree : TSNode := .mk 1 "module" none 0 34 (0, 0) (3, 0) [outer_fd]

/-! ### `broken_text`: `def f():\n    g()\n{` — a well-formed function
followed by one unmatched brace (not a well-formed Python program).
tree-sitter error-recovers: the function still parses and the stray brace
becomes an `ERROR` node. -/

/-- The malformed source text (ends with one unmatched brace). -/
def broken_text : List Char := "def f():\n    g()\n\x7b".toList

/-- Name `f` of the recovered function, bytes [4,5). -/
def broken_name : TSNode := .mk 32 "identifier" (some "name") 4 5 (0, 4) (0, 5) []

/-- `parameters` `()`, bytes [5,7). -/
def broken_params : TSNode := .mk 33 "parameters" (some "parameters") 5 7 (0, 5) (0, 7) []

/-- The callee identifier `g`, bytes [13,14). -/
def broken_g : TSNode := .mk 37 "identifier" (some "function") 13 14 (1, 4) (1, 5) []

/-- The `argument_list` of `g()`, bytes [14,16). -/
def broken_args : TSNode := .mk 38 "argument_list" none 14 16 (1, 5) (1, 7) []

/-- The `call` node `g()`, bytes [13,16). -/
def broken_call : TSNode := .mk 36 "call" none 13 16 (1, 4) (1, 7)
  [broken_g, broken_args]

/-- `expression_statement` wrapping the call, bytes [13,16). -/
def broken_exprstmt : TSNode := .mk 35 "expression_statement" none 13 16 (1, 4) (1, 7)
  [broken_call]

/-- `block` body of the recovered function, bytes [13,16). -/
def broken_block : TSNode := .mk 34 "block" (some "body") 13 16 (1, 4) (1, 7)
  [broken_exprstmt]

/-- The recovered `function_definition`, bytes [0,16). -/
def broken_fd : TSNode := .mk 31 "function_definition" none 0 16 (0, 0) (1, 7)
  [broken_name, broken_params, broken_block]

/-- The `ERROR` node holding the unmatched brace, bytes [17,18). -/
def broken_error : TSNode := .mk 40 "ERROR" none 17 18 (2, 0) (2, 1) []

/-- `module` root of the error-recovery parse tree of `broken_text`. -/
def broken_tree : TSNode := .mk 30 "module" none 0 18 (0, 0) (2, 1)
  [broken_fd, broken_error]

/-! ### `brace_text`: `{` — a lone unmatched brace -/

/-- The source text consisting of a single unmatched brace. -/
def brace_text : List Char := "\x7b".toList

/-- The `ERROR` node for the lone brace, bytes [0,1). -/
def brace_error : TSNode := .mk 51 "ERROR" none 0 1 (0, 0) (0, 1) []

/-- `module` root of the error-recovery parse tree of `brace_text`. -/
def brace_tree : TSNode := .mk 50 "module" none 0 1 (0, 0) (0, 1) [brace_error]

/-! ### `empty_text`: the empty input -/

/-- The empty source text. -/
def empty_text : List Char := ("" : String).toList

/-- `module` root of the parse tree of the empty text: no children. -/
def empty_tree : TSNode := .mk 1 "module" none 0 0 (0, 0) (0, 0) []

/-! ### `attr_text`: `o.m()` — a method call whose callee is an attribute,
not a bare identifier -/

/-- The source text `o.m()` as bytes. -/
def attr_text : List Char := "o.m()".toList

/-- The object identifier `o`, bytes [0,1). -/
def attr_obj : TSNode := .mk 64 "identifier" (some "object") 0 1 (0, 0) (0, 1) []

/-- The attribute identifier `m`, bytes [2,3). -/
def attr_meth : TSNode := .mk 65 "identifier" (some "attribute") 2 3 (0, 2) (0, 3) []

/-- The `attribute` node `o.m` in the call's `function` field, bytes [0,3). -/
def attr_node : TSNode := .mk 63 "attribute" (some "function") 0 3 (0, 0) (0, 3)
  [attr_obj, attr_meth]

/-- The `argument_list` `()`, bytes [3,5). -/
def attr_args : TSNode := .mk 66 "argument_list" none 3 5 (0, 3) (0, 5) []

/-- The `call` node `o.m()`, bytes [0,5). -/
def attr_call : TSNode := .mk 62 "call" none 0 5 (0, 0) (0, 5) [attr_node, attr_args]

/-- `expression_statement` wrapping the call, bytes [0,5). -/
def attr_exprstmt : TSNode := .mk 61 "expression_statement" none 0 5 (0, 0) (0, 5)
  [attr_call]

/-- `module` root of the parse tree of `attr_text`. -/
def attr_tree : TSNode := .mk 60 "module" none 0 5 (0, 0) (0, 5) [attr_exprstmt]

/-- Modelled from the spec: "Build `docstring` by inspecting the first
statement of the body: if it is an expression statement whose sole
expression is a string literal, its text is the docstring; otherwise
docstring is empty."  This definition returns the string-literal node of
such a leading statement, if there is one; the docstring the spec
describes is then that node's text. -/
def leading_string_lit (body_node : TSNode) : Option TSNode :=
  match body_node.children with
  | c :: _ =>
    if c.type = "expression_statement" then
      match c.children with
      | s :: _ => if s.type = "string" then some s else none
      | [] => none
    else none
  | [] => none

/-! # Theorems -/

/-- `get_docstring` computes exactly the docstring the spec describes,
except that the text returned for a leading string literal is the string
node's full source span, which includes the quote characters. -/
theorem get_docstring_eq_spec (b : TSNode) (content_bytes : List Char) :
    get_docstring b content_bytes =
      (leading_string_lit b).elim "" (fun s => get_node_text s content_bytes) := by
  unfold get_docstring leading_string_lit
  cases h : b.children with
  | nil => rfl
  | cons c rest =>
    by_cases hc : c.type = "expression_statement"
    · simp only [if_pos hc]
      cases hcc : c.children with
      | nil => rfl
      | cons s srest =>
        by_cases hs : s.type = "string"
        · simp [if_pos hs]
        · simp [if_neg hs]
    · simp [if_neg hc]

/-- The parent walk returns the first definition-kind node of the chain:
any prefix of non-definition ancestors is skipped. -/
theorem find_owner_append (pre : List TSNode) (b : TSNode) (rest : List TSNode)
    (hb : b.type = "function_definition" ∨ b.type = "class_definition")
    (hpre : ∀ x ∈ pre,
      x.type ≠ "function_definition" ∧ x.type ≠ "class_definition") :
    find_owner (pre ++ b :: rest) = some b := by
  induction pre with
  | nil =>
    simp only [List.nil_append]
    unfold find_owner
    rw [if_pos hb]
  | cons x xs ih =>
    have hx := hpre x (by simp)
    simp only [List.cons_append]
    unfold find_owner
    rw [if_neg (by rintro (h | h); exact hx.1 h; exact hx.2 h)]
    exact ih (fun y hy => hpre y (by simp [hy]))

/-- C2: for every call expression nested inside a function body B that is
itself nested inside function A, the owner attribution resolves to B, the
innermost lexically enclosing function or class definition, never to A:
the walk over the ancestor chain of the call's identifier (innermost
ancestor first) stops at the first `function_definition` or
`class_definition` ancestor, so whenever the chain splits as
`pre ++ b :: rest` with no definition-kind node in `pre` and `b` of
definition kind, the resolved owner is `b` — any enclosing definition in
`rest` is never chosen. -/
theorem call_owner_innermost (root : TSNode) (nid : Nat) (pre : List TSNode)
    (b : TSNode) (rest : List TSNode)
    (hchain : ancestor_chain root nid = some (pre ++ b :: rest))
    (hb : b.type = "function_definition" ∨ b.type = "class_definition")
    (hpre : ∀ x ∈ pre,
      x.type ≠ "function_definition" ∧ x.type ≠ "class_definition") :
    call_owner root nid = some b := by
  unfold call_owner
  rw [hchain]
  exact find_owner_append pre b rest hb hpre

/-- Witness for C2: in the nested-`f` tree, the ancestors of the call
identifier `g` (node 12) are the call, its statement, the inner body, the
inner `f`, the outer body, the outer `f` and the module, in that order;
the owner resolves to the inner `f`. -/
theorem call_owner_innermost_witness :
    call_owner nested_tree 12 = some inner_fd :=
  call_owner_innermost nested_tree 12 [g_call, g_exprstmt, inner_block]
    inner_fd [outer_block, outer_fd, nested_tree] (by rfl) (Or.inl rfl)
    (by
      intro x hx
      simp only [List.mem_cons, List.not_mem_nil, or_false] at hx
      rcases hx with rfl | rfl | rfl <;> exact ⟨by decide, by decide⟩)

/-- C6: on the tree of a function `f` whose body is a nested function also
named `f` containing the call `g()`, `analyze_python_code` produces two
distinct Function entities (same name, distinct defining nodes and
locations), and the call inside the inner `f` is owned by the inner
definition node (id 6), not the outer one (id 2). -/
theorem nested_same_name_distinct_entities :
    (analyze_python_code nested_tree nested_text).functions.map
        (fun f => (f.name, f.start_line, f.end_line)) =
      [("f", (0, 0), (2, 11)), ("f", (1, 4), (2, 11))] ∧
    (analyze_python_code nested_tree nested_text).functions.length = 2 ∧
    (analyze_python_code nested_tree nested_text).calls =
      [{ call_name := "g", line_number := (2, 8), owner_function := some "f" }] ∧
    (call_owner nested_tree g_ident.nid).map TSNode.nid = some inner_fd.nid ∧
    inner_fd.nid ≠ outer_fd.nid := by
  refine ⟨by decide, by decide, by decide, by decide, by decide⟩

/-- C7: analyzing the empty input text (whose parse tree is a childless
`module`) yields an `AnalysisResults` with all four sequences empty. -/
theorem analyze_empty_input :
    analyze_python_code empty_tree empty_text = ⟨[], [], [], []⟩ := by decide

/-- Counterexample to C3 as stated: `broken_text` is not a well-formed
Python program (it ends in one unmatched brace), yet `analyze_python_code`
on its error-recovery parse tree returns a non-empty result — the
well-formed function `f` preceding the stray brace is still extracted. -/
theorem analyze_malformed_not_empty :
    (analyze_python_code broken_tree broken_text).functions.map
        (fun f => f.name) = ["f"] ∧
    analyze_python_code broken_tree broken_text ≠ ⟨[], [], [], []⟩ := by
  refine ⟨by decide, by decide⟩

/-- C3 (amended): on malformed input no error is raised — tree-sitter
error-recovers and `analyze_python_code` (a total function over the
recovery tree) extracts whatever structural matches remain.  When nothing
matches, as for an input consisting of a single unmatched brace, the
result is the empty `AnalysisResults`. -/
theorem analyze_lone_brace_empty :
    analyze_python_code brace_tree brace_text = ⟨[], [], [], []⟩ := by decide

/-- Adding a node never changes the edge list. -/
theorem add_node_edges (g : DiGraph) (i lab : String) :
    (g.add_node i lab).edges = g.edges := by
  unfold DiGraph.add_node
  split <;> rfl

/-- Adding an edge never changes the node list. -/
theorem add_edge_nodes (g : DiGraph) (a b : String) :
    (g.add_edge a b).nodes = g.nodes := by
  unfold DiGraph.add_edge
  split <;> rfl

/-- `has_node` is unaffected by `add_edge`. -/
theorem has_node_add_edge (g : DiGraph) (a b x : String) :
    (g.add_edge a b).has_node x = g.has_node x := by
  unfold DiGraph.has_node
  rw [add_edge_nodes]

/-- `add_node` preserves every node already present. -/
theorem has_node_add_node_mono (g : DiGraph) (i lab x : String)
    (h : g.has_node x = true) : (g.add_node i lab).has_node x = true := by
  unfold DiGraph.add_node
  split
  · unfold DiGraph.has_node at h ⊢
    simp only [List.any_eq_true, decide_eq_true_eq] at h ⊢
    obtain ⟨p, hp, hpx⟩ := h
    refine ⟨if p.1 = i then (i, lab) else p, List.mem_map_of_mem _ hp, ?_⟩
    by_cases hpi : p.1 = i
    · simp only [if_pos hpi]
      rw [← hpi, hpx]
    · simp only [if_neg hpi]
      exact hpx
  · unfold DiGraph.has_node at h ⊢
    simp only [List.any_eq_true, decide_eq_true_eq] at h ⊢
    obtain ⟨p, hp, hpx⟩ := h
    exact ⟨p, List.mem_append_left _ hp, hpx⟩

/-- `add_node` makes its own node present. -/
theorem has_node_add_node_self (g : DiGraph) (i lab : String) :
    (g.add_node i lab).has_node i = true := by
  unfold DiGraph.add_node
  split
  · rename_i h
    unfold DiGraph.has_node at h ⊢
    simp only [List.any_eq_true, decide_eq_true_eq] at h ⊢
    obtain ⟨p, hp, hpi⟩ := h
    exact ⟨(i, lab), List.mem_map.mpr ⟨p, hp, by rw [if_pos hpi]⟩, rfl⟩
  · unfold DiGraph.has_node
    simp only [List.any_eq_true, decide_eq_true_eq]
    exact ⟨(i, lab), List.mem_append_right _ (by simp), rfl⟩

/-- Edges after `add_edge` are the old edges or the new pair. -/
theorem mem_add_edge (g : DiGraph) (a b x y : String)
    (h : (x, y) ∈ (g.add_edge a b).edges) :
    (x, y) ∈ g.edges ∨ (x = a ∧ y = b) := by
  unfold DiGraph.add_edge at h
  split at h
  · exact Or.inl h
  · simp only [List.mem_append, List.mem_singleton, Prod.mk.injEq] at h
    rcases h with h | ⟨h1, h2⟩
    · exact Or.inl h
    · exact Or.inr ⟨h1, h2⟩

/-- The edge loop of `create_mermaid_chart` preserves the no-dangling-edge
invariant: one step materializes both endpoints before adding the edge. -/
theorem add_edge_step_invariant (g : DiGraph) (e : GraphEdge)
    (h : ∀ x y, (x, y) ∈ g.edges →
      g.has_node x = true ∧ g.has_node y = true) :
    ∀ x y, (x, y) ∈ (add_edge_step g e).edges →
      (add_edge_step g e).has_node x = true ∧
        (add_edge_step g e).has_node y = true := by
  intro x y hxy
  unfold add_edge_step at hxy ⊢
  set g1 := if ¬ g.has_node e.from_ then g.add_node e.from_ e.from_ else g with hg1
  set g2 := if ¬ g1.has_node e.to_ then g1.add_node e.to_ e.to_ else g1 with hg2
  have hmono1 : ∀ z, g.has_node z = true → g1.has_node z = true := by
    intro z hz
    rw [hg1]
    split
    · exact has_node_add_node_mono _ _ _ _ hz
    · exact hz
  have hmono2 : ∀ z, g1.has_node z = true → g2.has_node z = true := by
    intro z hz
    rw [hg2]
    split
    · exact has_node_add_node_mono _ _ _ _ hz
    · exact hz
  have hfrom : g1.has_node e.from_ = true := by
    rw [hg1]
    split
    · exact has_node_add_node_self _ _ _
    · rename_i hcond
      exact Bool.of_not_eq_false (by intro hf; exact hcond (by rw [hf]; exact Bool.false_ne_true))
  have hto : g2.has_node e.to_ = true := by
    rw [hg2]
    split
    · exact has_node_add_node_self _ _ _
    · rename_i hcond
      exact Bool.of_not_eq_false (by intro hf; exact hcond (by rw [hf]; exact Bool.false_ne_true))
  have hedges : g2.edges = g.edges := by
    rw [hg2, hg1]
    split <;> split <;> simp only [add_node_edges]
  rw [has_node_add_edge, has_node_add_edge]
  rcases mem_add_edge _ _ _ _ _ hxy with hold | ⟨rfl, rfl⟩
  · rw [hedges] at hold
    obtain ⟨hx, hy⟩ := h x y hold
    exact ⟨hmono2 x (hmono1 x hx), hmono2 y (hmono1 y hy)⟩
  · exact ⟨hmono2 _ hfrom, hto⟩

/-- Folding the edge loop preserves the no-dangling-edge invariant. -/
theorem foldl_edges_invariant (edges : List GraphEdge) :
    ∀ g : DiGraph, (∀ x y, (x, y) ∈ g.edges →
      g.has_node x = true ∧ g.has_node y = true) →
    ∀ x y, (x, y) ∈ (edges.foldl add_edge_step g).edges →
      (edges.foldl add_edge_step g).has_node x = true ∧
        (edges.foldl add_edge_step g).has_node y = true := by
  induction edges with
  | nil => intro g h; exact h
  | cons e es ih =>
    intro g h
    exact ih (add_edge_step g e) (add_edge_step_invariant g e h)

/-- The node-insertion loop produces no edges. -/
theorem foldl_add_node_edges (nodes : List GraphNode) :
    ∀ g : DiGraph,
      (nodes.foldl (fun g n => g.add_node n.id n.label) g).edges = g.edges := by
  induction nodes with
  | nil => intro g; rfl
  | cons n ns ih =>
    intro g
    rw [List.foldl_cons, ih, add_node_edges]

/-- C4: every edge endpoint id absent from the explicit node set is
materialized as a node labelled with the raw id before rendering, so the
graph handed to the renderer has no dangling edges; in particular, with
explicit node "A" and edge A→B the built graph contains node "A", a
synthesized node "B" labelled "B", and exactly the one edge A→B. -/
theorem mermaid_no_dangling_edges :
    (∀ (nodes : List GraphNode) (edges : List GraphEdge) (a b : String),
      (a, b) ∈ (mermaid_graph nodes edges).edges →
      (mermaid_graph nodes edges).has_node a = true ∧
        (mermaid_graph nodes edges).has_node b = true) ∧
    mermaid_graph [⟨"A", "A"⟩] [⟨"A", "B"⟩] =
      ⟨[("A", "A"), ("B", "B")], [("A", "B")]⟩ := by
  constructor
  · intro nodes edges a b hab
    unfold mermaid_graph at hab ⊢
    refine foldl_edges_invariant edges _ ?_ a b hab
    intro x y hxy
    rw [foldl_add_node_edges] at hxy
    simp at hxy
  · decide

/-- Witness for C4 at the concrete input of the claim. -/
theorem mermaid_no_dangling_edges_witness :
    (mermaid_graph [⟨"A", "A"⟩] [⟨"A", "B"⟩]).has_node "A" = true ∧
      (mermaid_graph [⟨"A", "A"⟩] [⟨"A", "B"⟩]).has_node "B" = true :=
  mermaid_no_dangling_edges.1 [⟨"A", "A"⟩] [⟨"A", "B"⟩] "A" "B" (by decide)

/-- C8: a failure inside the diagram-rendering backend (a raised exception
from `builder.build`) is caught by the `try`/`except` of
`create_mermaid_chart` and the function returns empty text instead of
propagating the failure. -/
theorem chart_render_failure_degrades (libs : Bool)
    (render : DiGraph → Except String String) (nodes : List GraphNode)
    (edges : List GraphEdge) (msg : String)
    (h : render (mermaid_graph nodes edges) = .error msg) :
    create_mermaid_chart libs render nodes edges = "" := by
  unfold create_mermaid_chart
  split
  · rfl
  · split
    · rfl
    · rw [h]

/-- Witness for C8: a renderer that always raises yields empty text. -/
theorem chart_render_failure_degrades_witness :
    create_mermaid_chart true (fun _ => Except.error "boom")
      [⟨"A", "A"⟩] [⟨"A", "B"⟩] = "" :=
  chart_render_failure_degrades true (fun _ => Except.error "boom")
    [⟨"A", "A"⟩] [⟨"A", "B"⟩] "boom" rfl

/-- C9: with an empty node list `create_mermaid_chart` returns the empty
string and raises no error, regardless of the edge list (and of the
renderer). -/
theorem chart_empty_node_list (libs : Bool)
    (render : DiGraph → Except String String) (edges : List GraphEdge) :
    create_mermaid_chart libs render [] edges = "" := by
  cases libs <;> rfl

/-! ## Characterizing the `func_nodes` capture-correlation fold

The two hypotheses used below state that the tree is a real parse tree as
far as the `functions` query is concerned: the structurally recovered
`parent.id` of each match's `name`/`params`/`body` capture is the id of
that match's `function_definition` node, and distinct matched definitions
have distinct node ids.  Both hold for every tree tree-sitter produces
(nodes have unique ids and a unique parent) and are decidable, so concrete
witnesses discharge them by evaluation. -/

/-- A `function.definition` capture: `func_capture_step` inserts a fresh
record keyed by the definition node's id. -/
theorem step_fd (root : TSNode) (acc : List (Nat × FuncRec)) (node : TSNode) :
    func_capture_step root acc (node, "function.definition") =
      dict_set acc node.nid ⟨node, none, none, none⟩ := rfl

/-- A sub-capture (`name`/`params`/`body`): `func_capture_step` updates the
record keyed by the capture node's parent id, when present. -/
theorem step_sub (root : TSNode) (acc : List (Nat × FuncRec)) (node : TSNode)
    (tag : String) (pid : Nat)
    (ht : tag = "name" ∨ tag = "params" ∨ tag = "body")
    (hp : parent_id root node = some pid) :
    func_capture_step root acc (node, tag) =
      if acc.any (fun p => p.1 = pid) then
        acc.map (fun p => if p.1 = pid then (pid, set_capture p.2 tag node) else p)
      else acc := by
  have hne : ¬ tag = "function.definition" := by
    rcases ht with rfl | rfl | rfl <;> decide
  show (if tag = "function.definition" then
      dict_set acc node.nid ⟨node, none, none, none⟩
    else if tag = "name" ∨ tag = "params" ∨ tag = "body" then
      match parent_id root node with
      | some pid =>
        if acc.any (fun p => p.1 = pid) then
          acc.map (fun p => if p.1 = pid then (pid, set_capture p.2 tag node) else p)
        else acc
      | none => acc
    else acc) = _
  rw [if_neg hne, if_pos ht, hp]

/-- A key absent from every entry makes the dictionary-membership test
false. -/
theorem any_keys_false {β : Type} (acc : List (Nat × β)) (k : Nat)
    (h : ∀ p ∈ acc, p.1 ≠ k) : acc.any (fun p => p.1 = k) = false := by
  rw [List.any_eq_false]
  intro p hp
  simp only [decide_eq_true_eq]
  exact h p hp

/-- The just-appended key is found by the dictionary-membership test. -/
theorem any_keys_last {β : Type} (acc : List (Nat × β)) (k : Nat) (r : β) :
    (acc ++ [(k, r)]).any (fun p => p.1 = k) = true := by
  simp

/-- Updating key `k` in a dictionary whose other entries all have different
keys only rewrites the last (just-inserted) entry. -/
theorem map_update_at_last {β : Type} (acc : List (Nat × β)) (k : Nat) (r : β)
    (f : β → β) (h : ∀ p ∈ acc, p.1 ≠ k) :
    (acc ++ [(k, r)]).map (fun p => if p.1 = k then (k, f p.2) else p) =
      acc ++ [(k, f r)] := by
  rw [List.map_append]
  congr 1
  · calc acc.map (fun p => if p.1 = k then (k, f p.2) else p)
        = acc.map id := List.map_congr_left (fun p hp => by rw [if_neg (h p hp)]; rfl)
      _ = acc := List.map_id acc
  · simp

/-- Folding the four captures of one `functions`-query match over a
dictionary not containing the match's key appends one complete record. -/
theorem func_block_fold (root : TSNode) (m : FMatch) (acc : List (Nat × FuncRec))
    (h1 : parent_id root m.nm = some m.fd.nid)
    (h2 : parent_id root m.ps = some m.fd.nid)
    (h3 : parent_id root m.bd = some m.fd.nid)
    (hk : ∀ p ∈ acc, p.1 ≠ m.fd.nid) :
    (fmatch_captures m).foldl (func_capture_step root) acc =
      acc ++ [(m.fd.nid, ⟨m.fd, some m.nm, some m.ps, some m.bd⟩)] := by
  unfold fmatch_captures
  simp only [List.foldl_cons, List.foldl_nil]
  rw [step_fd]
  have e1 : dict_set acc m.fd.nid ⟨m.fd, none, none, none⟩ =
      acc ++ [(m.fd.nid, ⟨m.fd, none, none, none⟩)] := by
    unfold dict_set
    rw [any_keys_false acc m.fd.nid hk]
    rfl
  rw [e1,
    step_sub root _ m.nm "name" m.fd.nid (Or.inl rfl) h1,
    if_pos (any_keys_last acc m.fd.nid _),
    map_update_at_last acc m.fd.nid _ (fun r => set_capture r "name" m.nm) hk,
    step_sub root _ m.ps "params" m.fd.nid (Or.inr (Or.inl rfl)) h2,
    if_pos (any_keys_last acc m.fd.nid _),
    map_update_at_last acc m.fd.nid _ (fun r => set_capture r "params" m.ps) hk,
    step_sub root _ m.bd "body" m.fd.nid (Or.inr (Or.inr rfl)) h3,
    if_pos (any_keys_last acc m.fd.nid _),
    map_update_at_last acc m.fd.nid _ (fun r => set_capture r "body" m.bd) hk]
  rfl

/-- Folding all matches' capture blocks builds one complete record per
match, in match order. -/
theorem func_blocks_fold (root : TSNode) (ms : List FMatch) :
    ∀ acc : List (Nat × FuncRec),
    (∀ m ∈ ms, parent_id root m.nm = some m.fd.nid ∧
      parent_id root m.ps = some m.fd.nid ∧ parent_id root m.bd = some m.fd.nid) →
    (ms.map (fun m => m.fd.nid)).Nodup →
    (∀ m ∈ ms, ∀ p ∈ acc, p.1 ≠ m.fd.nid) →
    ((ms.map fmatch_captures).flatten).foldl (func_capture_step root) acc =
      acc ++ ms.map (fun m => (m.fd.nid, ⟨m.fd, some m.nm, some m.ps, some m.bd⟩)) := by
  induction ms with
  | nil => intro acc _ _ _; simp
  | cons m t ih =>
    intro acc hp hnd hdisj
    simp only [List.map_cons, List.flatten_cons, List.foldl_append]
    obtain ⟨hm1, hm2, hm3⟩ := hp m (by simp)
    obtain ⟨hmem, hndt⟩ := List.nodup_cons.mp hnd
    rw [func_block_fold root m acc hm1 hm2 hm3 (fun p hp' => hdisj m (by simp) p hp')]
    have hdisj' : ∀ m' ∈ t,
        ∀ p ∈ acc ++ [(m.fd.nid, (⟨m.fd, some m.nm, some m.ps, some m.bd⟩ : FuncRec))],
        p.1 ≠ m'.fd.nid := by
      intro m' hm' p hp'
      rcases List.mem_append.mp hp' with h | h
      · exact hdisj m' (by simp [hm']) p h
      · rw [List.mem_singleton.mp h]
        intro hkey
        exact hmem (by
          show m.fd.nid ∈ List.map (fun m => m.fd.nid) t
          rw [show m.fd.nid = m'.fd.nid from hkey]
          exact List.mem_map_of_mem (fun m => m.fd.nid) hm')
    rw [ih _ (fun m' hm' => hp m' (by simp [hm'])) hndt hdisj']
    simp

/-- On a well-formed tree, the finished `func_nodes` dictionary holds, in
match order, one complete record per `functions`-query match. -/
theorem func_nodes_eq (root : TSNode)
    (hp : ∀ m ∈ function_matches root, parent_id root m.nm = some m.fd.nid ∧
      parent_id root m.ps = some m.fd.nid ∧ parent_id root m.bd = some m.fd.nid)
    (hnd : ((function_matches root).map (fun m => m.fd.nid)).Nodup) :
    func_nodes root = (function_matches root).map
      (fun m => (m.fd.nid, ⟨m.fd, some m.nm, some m.ps, some m.bd⟩)) := by
  unfold func_nodes functions_captures
  rw [func_blocks_fold root (function_matches root) [] hp hnd (by simp)]
  simp

/-- On a well-formed tree, `results["functions"]` contains exactly one
entry per `functions`-query match, built from that match's captures. -/
theorem functions_results_eq (root : TSNode) (content_bytes : List Char)
    (hp : ∀ m ∈ function_matches root, parent_id root m.nm = some m.fd.nid ∧
      parent_id root m.ps = some m.fd.nid ∧ parent_id root m.bd = some m.fd.nid)
    (hnd : ((function_matches root).map (fun m => m.fd.nid)).Nodup) :
    functions_results root content_bytes = (function_matches root).map
      (fun m =>
        { name := get_node_text m.nm content_bytes
          signature := "def " ++ get_node_text m.nm content_bytes ++
            get_node_text m.ps content_bytes
          docstring := get_docstring m.bd content_bytes
          code_body := get_node_text m.fd content_bytes
          start_line := m.fd.startPoint
          end_line := m.fd.endPoint }) := by
  unfold functions_results
  rw [func_nodes_eq root hp hnd, List.map_map]
  generalize function_matches root = ms
  induction ms with
  | nil => rfl
  | cons m t iht =>
    rw [List.map_cons, List.map_cons]
    exact congrArg (List.cons _) iht

/-- C1 (amended): the extracted Function entities correspond one-to-one,
in order, to the `functions`-query matches, each entity paired with its
own defining match (same name text, same verbatim body span, same start
location); and each entity's `docstring` is determined by that match's own
body: when the body's first statement is an expression statement holding a
string literal, `docstring` is that literal's source text — including the
quote characters — and when the body does not start with such a statement,
`docstring` is empty.  (`leading_string_lit` is the spec's description of
the leading string-literal statement.) -/
theorem functions_docstring_full_literal_text (root : TSNode) (content_bytes : List Char)
    (hp : ∀ m ∈ function_matches root, parent_id root m.nm = some m.fd.nid ∧
      parent_id root m.ps = some m.fd.nid ∧ parent_id root m.bd = some m.fd.nid)
    (hnd : ((function_matches root).map (fun m => m.fd.nid)).Nodup) :
    List.Forall₂
      (fun (f : FunctionInfo) (m : FMatch) =>
        f.name = get_node_text m.nm content_bytes ∧
        f.code_body = get_node_text m.fd content_bytes ∧
        f.start_line = m.fd.startPoint ∧
        f.docstring = (leading_string_lit m.bd).elim ""
          (fun s => get_node_text s content_bytes))
      (analyze_python_code root content_bytes).functions
      (function_matches root) := by
  have heq : (analyze_python_code root content_bytes).functions =
      functions_results root content_bytes := rfl
  rw [heq, functions_results_eq root content_bytes hp hnd]
  generalize function_matches root = ms
  induction ms with
  | nil => exact List.Forall₂.nil
  | cons m t iht =>
    exact List.Forall₂.cons
      ⟨rfl, rfl, rfl, get_docstring_eq_spec m.bd content_bytes⟩ iht

/-- Witness for C1 (amended): on the docstring example tree the single
entity is paired with its own match and carries the quoted literal text,
and on the nested-`f` tree (no leading string literals) both entities are
paired with their own matches and carry empty docstrings. -/
theorem functions_docstring_full_literal_text_witness :
    List.Forall₂
      (fun (f : FunctionInfo) (m : FMatch) =>
        f.name = get_node_text m.nm doc_text ∧
        f.code_body = get_node_text m.fd doc_text ∧
        f.start_line = m.fd.startPoint ∧
        f.docstring = (leading_string_lit m.bd).elim ""
          (fun s => get_node_text s doc_text))
      (analyze_python_code doc_tree doc_text).functions
      (function_matches doc_tree) ∧
    List.Forall₂
      (fun (f : FunctionInfo) (m : FMatch) =>
        f.name = get_node_text m.nm nested_text ∧
        f.code_body = get_node_text m.fd nested_text ∧
        f.start_line = m.fd.startPoint ∧
        f.docstring = (leading_string_lit m.bd).elim ""
          (fun s => get_node_text s nested_text))
      (analyze_python_code nested_tree nested_text).functions
      (function_matches nested_tree) :=
  ⟨functions_docstring_full_literal_text doc_tree doc_text (by decide) (by decide),
    functions_docstring_full_literal_text nested_tree nested_text
      (by decide) (by decide)⟩

/-- Counterexample to C1 as stated: for `def f():` with body `"d"`, the
extracted docstring is `"d"` with the quote characters — not the bare
text `d` the claim requires ("quote characters excluded"). -/
theorem docstring_keeps_quotes_cex :
    (analyze_python_code doc_tree doc_text).functions.map (fun f => f.docstring) =
      ["\"d\""] ∧
    (analyze_python_code doc_tree doc_text).functions.map (fun f => f.docstring) ≠
      ["d"] := by
  refine ⟨by decide, by decide⟩

/-- C5 (amended): for every extracted Function entity, `signature` is the
string `"def "` followed by the name text and the parameter-list text —
not the bare concatenation of name and parameters the claim states. -/
theorem functions_signature_prepends_def (root : TSNode) (content_bytes : List Char)
    (hp : ∀ m ∈ function_matches root, parent_id root m.nm = some m.fd.nid ∧
      parent_id root m.ps = some m.fd.nid ∧ parent_id root m.bd = some m.fd.nid)
    (hnd : ((function_matches root).map (fun m => m.fd.nid)).Nodup) :
    ∀ f ∈ (analyze_python_code root content_bytes).functions,
      ∃ m ∈ function_matches root,
        f.name = get_node_text m.nm content_bytes ∧
        f.signature = "def " ++ get_node_text m.nm content_bytes ++
          get_node_text m.ps content_bytes := by
  intro f hf
  have heq : (analyze_python_code root content_bytes).functions =
      functions_results root content_bytes := rfl
  rw [heq, functions_results_eq root content_bytes hp hnd] at hf
  obtain ⟨m, hm, rfl⟩ := List.mem_map.mp hf
  exact ⟨m, hm, rfl, rfl⟩

/-- Witness for C5 (amended) on the docstring example tree. -/
theorem functions_signature_prepends_def_witness :
    ∃ m ∈ function_matches doc_tree,
      ({ name := "f", signature := "def f()", docstring := "\"d\"",
         code_body := "def f():\n    \"d\"", start_line := (0, 0),
         end_line := (1, 7) } : FunctionInfo).name = get_node_text m.nm doc_text ∧
      ({ name := "f", signature := "def f()", docstring := "\"d\"",
         code_body := "def f():\n    \"d\"", start_line := (0, 0),
         end_line := (1, 7) } : FunctionInfo).signature =
        "def " ++ get_node_text m.nm doc_text ++ get_node_text m.ps doc_text :=
  functions_signature_prepends_def doc_tree doc_text (by decide) (by decide)
    { name := "f", signature := "def f()", docstring := "\"d\"",
      code_body := "def f():\n    \"d\"", start_line := (0, 0), end_line := (1, 7) }
    (by decide)

/-- Counterexample to C5 as stated: the signature of `def f():` is
`def f()`, with `def ` prepended, not the bare concatenation `f()` of
name text and parameter-list text. -/
theorem signature_not_bare_concat_cex :
    (analyze_python_code doc_tree doc_text).functions.map (fun f => f.signature) =
      ["def f()"] ∧
    get_node_text doc_name doc_text ++ get_node_text doc_params doc_text = "f()" ∧
    (analyze_python_code doc_tree doc_text).functions.map (fun f => f.signature) ≠
      ["f()"] := by
  refine ⟨by decide, by decide, by decide⟩

/-- A node/identifier pair reported by the `calls` query satisfies the
query pattern: a `call` node whose `function` field child is that
identifier. -/
theorem call_match_sound (n idn : TSNode) (h : call_match n = some idn) :
    n.type = "call" ∧ child_by_field_name n "function" = some idn ∧
      idn.type = "identifier" := by
  unfold call_match at h
  split at h
  · rename_i ht
    split at h
    · rename_i c heq
      split at h
      · rename_i hid
        cases h
        exact ⟨ht, heq, hid⟩
      · cases h
    · cases h
  · cases h

/-- C10: every recorded CallSite comes from a `calls`-query match, i.e.
from a call expression whose function position is a plain identifier; its
callee text and location are that identifier's.  Call expressions whose
callee is not a bare identifier (such as attribute/method calls) produce
no CallSite, since the query does not match them. -/
theorem calls_only_identifier_callees (root : TSNode) (content_bytes : List Char) :
    ∀ c ∈ (analyze_python_code root content_bytes).calls,
      ∃ p ∈ call_matches root,
        p.1.type = "call" ∧
        child_by_field_name p.1 "function" = some p.2 ∧
        p.2.type = "identifier" ∧
        c.call_name = get_node_text p.2 content_bytes ∧
        c.line_number = p.2.startPoint := by
  intro c hc
  have hc' : c ∈ calls_results root content_bytes := hc
  unfold calls_results at hc'
  obtain ⟨cap, hcap, hsome⟩ := List.mem_filterMap.mp hc'
  by_cases htag : cap.2 = "name"
  · rw [if_pos htag] at hsome
    unfold calls_captures at hcap
    obtain ⟨l, hl, hcapl⟩ := List.mem_flatten.mp hcap
    obtain ⟨p, hpmem, rfl⟩ := List.mem_map.mp hl
    obtain ⟨n, hn, hmap⟩ := List.mem_filterMap.mp hpmem
    obtain ⟨idn, hcallm, rfl⟩ := Option.map_eq_some'.mp hmap
    obtain ⟨hty, hfield, hidty⟩ := call_match_sound n idn hcallm
    simp only [List.mem_cons, List.not_mem_nil, or_false] at hcapl
    rcases hcapl with rfl | rfl
    · simp at htag
    · cases hsome
      exact ⟨(n, idn), List.mem_filterMap.mpr ⟨n, hn, by rw [hcallm]; rfl⟩,
        hty, hfield, hidty, rfl, rfl⟩
  · rw [if_neg htag] at hsome
    cases hsome

/-- Witness for C10: the attribute call `o.m()` yields no CallSite at all,
while the identifier call `g()` of the nested tree yields one that indeed
comes from an identifier in function position. -/
theorem calls_only_identifier_callees_witness :
    (analyze_python_code attr_tree attr_text).calls = [] ∧
    (∃ p ∈ call_matches nested_tree,
      p.1.type = "call" ∧
      child_by_field_name p.1 "function" = some p.2 ∧
      p.2.type = "identifier" ∧
      ({ call_name := "g", line_number := (2, 8), owner_function := some "f" } :
        CallInfo).call_name = get_node_text p.2 nested_text ∧
      ({ call_name := "g", line_number := (2, 8), owner_function := some "f" } :
        CallInfo).line_number = p.2.startPoint) :=
  ⟨by decide,
    calls_only_identifier_callees nested_tree nested_text
      { call_name := "g", line_number := (2, 8), owner_function := some "f" }
      (by decide)⟩

end CodebaseGenius
